import Mathlib

/-!
Verification of the SDK wrapper generator and its integration-settings
persistence (`packages/yarnpkg-pnpify/sources/generateSdk.ts`).

The TypeScript source is shallowly embedded below:
* JavaScript runtime values are `JsVal` (objects are association lists,
  arrays are `JsArr`), with `typeof`-style classification.
* `IntegrationsFile` becomes the record `IFState` with pure
  `load` / `exportTo` / `persistDoc` functions (exceptions become `Except`).
* The `TEMPLATE` renderer becomes a list of typed lines (`TLine`) whose
  exact text is produced by `renderLine`; the source builds the very same
  list of string pieces and joins them.
* `Wrapper`'s mutable `paths` map becomes an association list with
  JavaScript `Map.set` / `Map.get` semantics.
* `generateSdk` becomes a pure function from its inputs to the ordered
  trace of effects (warnings, removals, generator invocations, reports).

JavaScript `Set` iteration order is insertion order with duplicates
dropped; sets are therefore embedded as duplicate-free lists built by
`jsSetOf`. Object identity of JS values is coarsened to structural
equality; every claim below only exercises primitive (string) elements,
where the two coincide.
-/

section JsSet

variable {α : Type} [DecidableEq α]

/-- `new Set(list)` in JavaScript: keep the first occurrence of each
element, preserving insertion order (accumulator-passing form). -/
def jsSetAux (acc : List α) : List α → List α
  | [] => acc
  | x :: xs => jsSetAux (if x ∈ acc then acc else acc ++ [x]) xs

/-- `new Set(list)`: duplicate-free list of the elements in first-occurrence
order. -/
def jsSetOf (l : List α) : List α := jsSetAux [] l

theorem jsSetAux_eq_append (l : List α) : ∀ (acc : List α),
    l.Nodup → (∀ x ∈ l, x ∉ acc) → jsSetAux acc l = acc ++ l := by
  induction l with
  | nil => intro acc _ _; simp [jsSetAux]
  | cons x xs ih =>
    intro acc hnd hdisj
    have hx : x ∉ acc := hdisj x (by simp)
    rw [List.nodup_cons] at hnd
    simp only [jsSetAux, if_neg hx]
    rw [ih (acc ++ [x]) hnd.2]
    · simp
    · intro y hy
      simp only [List.mem_append, List.mem_singleton, not_or]
      exact ⟨hdisj y (by simp [hy]), fun h => hnd.1 (h ▸ hy)⟩

theorem jsSetOf_of_nodup {l : List α} (h : l.Nodup) : jsSetOf l = l := by
  rw [jsSetOf, jsSetAux_eq_append l [] h (by simp), List.nil_append]

theorem mem_jsSetAux (l : List α) : ∀ (acc : List α) (x : α),
    x ∈ jsSetAux acc l ↔ x ∈ acc ∨ x ∈ l := by
  induction l with
  | nil => intro acc x; simp [jsSetAux]
  | cons y ys ih =>
    intro acc x
    simp only [jsSetAux]
    rw [ih]
    by_cases hy : y ∈ acc
    · simp only [if_pos hy, List.mem_cons]
      constructor
      · rintro (h | h)
        · exact Or.inl h
        · exact Or.inr (Or.inr h)
      · rintro (h | rfl | h)
        · exact Or.inl h
        · exact Or.inl hy
        · exact Or.inr h
    · simp only [if_neg hy, List.mem_append, List.mem_singleton, List.mem_cons]
      tauto

theorem mem_jsSetOf {l : List α} {x : α} : x ∈ jsSetOf l ↔ x ∈ l := by
  rw [jsSetOf, mem_jsSetAux]; simp

end JsSet

mutual

/-- A JavaScript runtime value, as far as `generateSdk.ts` inspects values:
`null`, `undefined`, booleans, numbers (integral), strings, arrays and
plain objects. -/
inductive JsVal where
  | jnull
  | jundef
  | jbool (b : Bool)
  | jnum (n : Int)
  | jstr (s : String)
  | jarr (xs : JsArr)
  | jobj (fields : JsObj)
deriving DecidableEq

/-- A JavaScript array of `JsVal`s. -/
inductive JsArr where
  | nil
  | cons (hd : JsVal) (tl : JsArr)
deriving DecidableEq

/-- A JavaScript plain object: ordered key/value fields (keys unique, as
produced by any parse). -/
inductive JsObj where
  | nil
  | cons (key : String) (val : JsVal) (tl : JsObj)
deriving DecidableEq

end

/-- Elements of a JS array as a Lean list. -/
def JsArr.toList : JsArr → List JsVal
  | .nil => []
  | .cons x tl => x :: tl.toList

/-- Build a JS array from a Lean list. -/
def JsArr.ofList : List JsVal → JsArr
  | [] => .nil
  | x :: tl => .cons x (JsArr.ofList tl)

theorem JsArr.toList_ofList (l : List JsVal) : (JsArr.ofList l).toList = l := by
  induction l with
  | nil => rfl
  | cons x tl ih => simp [JsArr.ofList, JsArr.toList, ih]

/-- Property read `o[key]` on a plain object (first matching field; parsed
objects have unique keys). Missing keys give `undefined`, i.e. `none`. -/
def JsObj.get : JsObj → String → Option JsVal
  | .nil, _ => none
  | .cons k v tl, key => if k = key then some v else tl.get key

/-- Whether the object has a field named `key`. -/
def JsObj.hasKey : JsObj → String → Bool
  | .nil, _ => false
  | .cons k _ tl, key => k == key || tl.hasKey key

/-- Overwrite every field named `key` (parsed objects have at most one). -/
def JsObj.overwrite : JsObj → String → JsVal → JsObj
  | .nil, _, _ => .nil
  | .cons k w tl, key, v =>
      if k = key then .cons k v (tl.overwrite key v) else .cons k w (tl.overwrite key v)

/-- Append a fresh field at the end. -/
def JsObj.append1 : JsObj → String → JsVal → JsObj
  | .nil, key, v => .cons key v .nil
  | .cons k w tl, key, v => .cons k w (tl.append1 key v)

/-- Property write `o[key] = v`: update in place when the key exists,
otherwise append the new field (JS object insertion order). -/
def JsObj.set (o : JsObj) (key : String) (v : JsVal) : JsObj :=
  if o.hasKey key then o.overwrite key v else o.append1 key v

/-- Property read `data[key]` on an arbitrary value: only plain objects have
the fields this module reads; everything else yields `undefined`. -/
def getField (v : JsVal) (key : String) : Option JsVal :=
  match v with
  | .jobj o => o.get key
  | _ => none

/-- `typeof v === 'object'`: true exactly for `null`, arrays and objects. -/
def typeofIsObject : JsVal → Bool
  | .jnull => true
  | .jarr _ => true
  | .jobj _ => true
  | _ => false

mutual

/-- `String(v)` string conversion as used in template-literal
interpolation. -/
def JsVal.jsToString : JsVal → String
  | .jnull => "null"
  | .jundef => "undefined"
  | .jbool b => if b then "true" else "false"
  | .jnum n => toString n
  | .jstr s => s
  | .jobj _ => "[object Object]"
  | .jarr xs => JsArr.joinDefault xs

/-- An element under `Array.prototype.join`: `null` and `undefined` render
as the empty string, everything else via `String(v)`. -/
def JsVal.joinElem : JsVal → String
  | .jnull => ""
  | .jundef => ""
  | v => v.jsToString

/-- `array.join(",")` (the default separator used by `String(array)`). -/
def JsArr.joinDefault : JsArr → String
  | .nil => ""
  | .cons x .nil => x.joinElem
  | .cons x (.cons y tl) => x.joinElem ++ "," ++ JsArr.joinDefault (.cons y tl)

end

/-- `array.join(", ")` over a Lean list of values (the join used by
`validateIntegrations` for its error message). -/
def jsJoinCommaSpace (l : List JsVal) : String :=
  String.intercalate ", " (l.map JsVal.joinElem)

/-- Keys of the `SUPPORTED_INTEGRATIONS` map (`generateSdk.ts`, lines
21-24): COC-vim and VSCode. -/
def SUPPORTED_INTEGRATION_NAMES : List String := ["vim", "vscode"]

/-- Whether a string names a supported integration. -/
def isSupportedName (s : String) : Bool := SUPPORTED_INTEGRATION_NAMES.contains s

/-- `SUPPORTED_INTEGRATIONS.has(v)` for an arbitrary runtime value: the map
keys are strings, so only a string can test positive. -/
def isSupported (v : JsVal) : Bool :=
  match v with
  | .jstr s => isSupportedName s
  | _ => false

/-- The two errors `IntegrationsFile.load` can signal: the generic
invalid-data `Error` and the `UsageError` thrown by
`validateIntegrations`. Each carries the data its message interpolates. -/
inductive LoadError where
  | utterlyInvalid (data : JsVal)
  | usage (unsupportedIntegrations : List JsVal)
deriving DecidableEq

instance {ε α : Type} [DecidableEq ε] [DecidableEq α] : DecidableEq (Except ε α) := fun x y =>
  match x, y with
  | .ok a, .ok b =>
      if h : a = b then isTrue (by rw [h]) else isFalse (fun he => by cases he; exact h rfl)
  | .error a, .error b =>
      if h : a = b then isTrue (by rw [h]) else isFalse (fun he => by cases he; exact h rfl)
  | .ok _, .error _ => isFalse (fun he => by cases he)
  | .error _, .ok _ => isFalse (fun he => by cases he)

/-- The guidance text ending the `validateIntegrations` error message. -/
def USAGE_GUIDANCE : String :=
  ". Run `yarn pnpify --sdk -h` to see the list of supported integrations."

/-- The exact message text of each error. -/
def errorMessage : LoadError → String
  | .utterlyInvalid data =>
      "Utterly invalid integrations file data (" ++ data.jsToString ++ ")"
  | .usage u =>
      "No supported integrations with the following names could be found: "
        ++ jsJoinCommaSpace u ++ USAGE_GUIDANCE

/-- `validateIntegrations` (lines 29-41): collect every element of the set
that is not a supported integration, in iteration order; if any were
collected, throw a `UsageError` naming them all. -/
def validateIntegrations (integrations : List JsVal) : Except LoadError Unit :=
  let unsupportedIntegrations := integrations.filter (fun v => !(isSupported v))
  if unsupportedIntegrations.length > 0 then
    .error (.usage unsupportedIntegrations)
  else
    .ok ()

/-- The state of an `IntegrationsFile` instance: the `integrations` set
(insertion-ordered, duplicate-free) and the `raw` parsed document. -/
structure IFState where
  integrations : List JsVal
  raw : JsVal
deriving DecidableEq

/-- A freshly constructed `IntegrationsFile`: empty set, empty raw object. -/
def emptyIF : IFState := { integrations := [], raw := .jobj .nil }

/-- `IntegrationsFile.load(data)` (lines 79-89): reject anything that is
not of `typeof === 'object'` or is `null`; copy `data` into `raw`; if the
`integrations` field is an array, set `integrations` to its element set and
validate every element. -/
def IFState.load (st : IFState) (data : JsVal) : Except LoadError IFState :=
  if typeofIsObject data = false ∨ data = .jnull then
    .error (.utterlyInvalid data)
  else
    let st1 : IFState := { st with raw := data }
    match getField data "integrations" with
    | some (.jarr xs) =>
        let integs := jsSetOf xs.toList
        match validateIntegrations integs with
        | .error e => .error e
        | .ok _ => .ok { st1 with integrations := integs }
    | _ => .ok st1

/-- `IntegrationsFile.exportTo(data)` (lines 91-96): write the
`integrations` key into the supplied object only when the set is
non-empty; return the mutated object. -/
def IFState.exportTo (st : IFState) (data : JsVal) : JsVal :=
  if st.integrations.length > 0 then
    match data with
    | .jobj o => .jobj (o.set "integrations" (.jarr (JsArr.ofList st.integrations)))
    | other => other
  else
    data

/-- The banner `persist` prepends to the serialized document. -/
def PERSIST_BANNER : String :=
  "# This file is automatically generated by PnPify.\n# Manual changes will be lost!\n\n"

/-- The document `IntegrationsFile.persist(dir)` (lines 98-110) serializes:
`exportTo` applied to a fresh empty object. The serialization layer
(`stringifySyml` / `parseSyml` from `yarnpkg-parsers`, which is repository
code not present under `src/`) is modelled from the spec as a faithful
stringify/parse pair on structured key-value documents, so reloading the
persisted file is `load` applied to this document. -/
def persistDoc (st : IFState) : JsVal := st.exportTo (.jobj .nil)

/-- The document `{integrations: S}` with `S` a list of string
identifiers. -/
def mkIntegrationsDoc (S : List String) : JsVal :=
  .jobj (.cons "integrations" (.jarr (JsArr.ofList (S.map .jstr))) .nil)

example : emptyIF.load (mkIntegrationsDoc ["vscode"]) =
    .ok { integrations := [.jstr "vscode"], raw := mkIntegrationsDoc ["vscode"] } := by
  decide

example : emptyIF.load (.jstr "nope") = .error (.utterlyInvalid (.jstr "nope")) := by
  decide

example : emptyIF.load (mkIntegrationsDoc ["vscode", "foo", "bar"]) =
    .error (.usage [.jstr "foo", .jstr "bar"]) := by
  decide

/-- `JSON.stringify` of a string: quoted, with the common escapes (other
control characters, which no caller produces, are kept as-is). -/
def jsonEscapeChar (c : Char) : String :=
  if c = '"' then "\\\"" else
  if c = '\\' then "\\\\" else
  if c = '\n' then "\\n" else
  if c = '\t' then "\\t" else
  if c = '\r' then "\\r" else
  String.singleton c

/-- `JSON.stringify(s)` for a string `s`. `npath.fromPortablePath` (from
`yarnpkg-fslib`, repository code not present under `src/`) is modelled from
the spec as the identity, which it is on posix paths. -/
def jsonStringify (s : String) : String :=
  "\"" ++ String.join (s.toList.map jsonEscapeChar) ++ "\""

/-- One line of `wrapModule` source under `replace(/^ \x7b4\x7d/gm, ...)`:
drop exactly four leading spaces when present. -/
def stripFourSpaces (line : String) : String :=
  if "    ".isPrefixOf line then line.drop 4 else line

/-- `wrapModule.trim().replace(/^ \x7b4\x7d/gm, ...)` (line 132): trim the
whole source, then de-indent each line by four spaces. -/
def normalizeWrapModule (w : String) : String :=
  String.intercalate "\n" ((w.trim.splitOn "\n").map stripFourSpaces)

/-- The options accepted by `TEMPLATE` (lines 113-117), with the same
defaults the destructuring applies. -/
structure TemplateOptions where
  setupEnv : Bool := false
  usePnpify : Bool := false
  wrapModule : Option String := none
deriving DecidableEq

/-- JavaScript truthiness of the optional `wrapModule` string: `undefined`
and the empty string are falsy. -/
def wrapActive (o : TemplateOptions) : Bool :=
  match o.wrapModule with
  | none => false
  | some w => w != ""

/-- One line of the generated script. Lines whose text is identical share a
constructor; lines that interpolate a value carry it. -/
inductive TLine where
  | shebang
  | blank
  | requireFs
  | requireModule
  | requirePath
  | declRelPnpApiPath (p : String)
  | declAbsPnpApiPath
  | declAbsRequire
  | declModuleWrapper (w : String)
  | ifExists
  | ifNotPnp
  | setupComment (m : String)
  | setupCall
  | closeInner
  | envGuardOpen
  | envDefineProp
  | envNodeOptionsInit
  | envNodeOptionsAppend
  | pnpifyGuardOpen
  | pnpifyDefineProp
  | pnpifyNodeOptionsAppend
  | pnpifyComment
  | pnpifyPatchFs
  | closeOuter
  | deferComment (m : String)
  | exportsDirect (m : String)
  | exportsWrapped (m : String)
deriving DecidableEq

/-- The exact text of each generated line (transcribed from lines
119-164). -/
def renderLine : TLine → String
  | .shebang => "#!/usr/bin/env node\n"
  | .blank => "\n"
  | .requireFs => "const \x7bexistsSync\x7d = require(`fs`);\n"
  | .requireModule => "const \x7bcreateRequire, createRequireFromPath\x7d = require(`module`);\n"
  | .requirePath => "const \x7bresolve\x7d = require(`path`);\n"
  | .declRelPnpApiPath p => "const relPnpApiPath = " ++ jsonStringify p ++ ";\n"
  | .declAbsPnpApiPath => "const absPnpApiPath = resolve(__dirname, relPnpApiPath);\n"
  | .declAbsRequire => "const absRequire = (createRequire || createRequireFromPath)(absPnpApiPath);\n"
  | .declModuleWrapper w => "const moduleWrapper = " ++ w ++ "\n"
  | .ifExists => "if (existsSync(absPnpApiPath)) \x7b\n"
  | .ifNotPnp => "  if (!process.versions.pnp) \x7b\n"
  | .setupComment m => "    // Setup the environment to be able to require " ++ m ++ "\n"
  | .setupCall => "    require(absPnpApiPath).setup();\n"
  | .closeInner => "  \x7d\n"
  | .envGuardOpen => "  if (typeof global[`__yarnpkg_sdk_has_setup_env__`] === `undefined`) \x7b\n"
  | .envDefineProp => "    Object.defineProperty(global, `__yarnpkg_sdk_has_setup_env__`, \x7bconfigurable: true, value: true\x7d);\n"
  | .envNodeOptionsInit => "    process.env.NODE_OPTIONS = process.env.NODE_OPTIONS || ``;\n"
  | .envNodeOptionsAppend => "    process.env.NODE_OPTIONS += ` -r $\x7babsPnpApiPath\x7d`;\n"
  | .pnpifyGuardOpen => "  if (typeof global[`__yarnpkg_sdk_is_using_pnpify__`] === `undefined`) \x7b\n"
  | .pnpifyDefineProp => "    Object.defineProperty(global, `__yarnpkg_sdk_is_using_pnpify__`, \x7bconfigurable: true, value: true\x7d);\n"
  | .pnpifyNodeOptionsAppend => "    process.env.NODE_OPTIONS += ` -r $\x7bpnpifyResolution\x7d`;\n"
  | .pnpifyComment => "    // Apply PnPify to the current process\n"
  | .pnpifyPatchFs => "    absRequire(`@yarnpkg/pnpify`).patchFs();\n"
  | .closeOuter => "\x7d\n"
  | .deferComment m => "// Defer to the real " ++ m ++ " your application uses\n"
  | .exportsDirect m => "module.exports = absRequire(`" ++ m ++ "`);\n"
  | .exportsWrapped m => "module.exports = moduleWrapper(absRequire(`" ++ m ++ "`));\n"

/-- `TEMPLATE` (lines 119-164) as the list of lines it concatenates, with
each conditional spread translated to a conditional segment. -/
def templateLines (relPnpApiPath : String) (module : String) (o : TemplateOptions) : List TLine :=
  [.shebang, .blank, .requireFs, .requireModule, .requirePath, .blank,
   .declRelPnpApiPath relPnpApiPath, .blank, .declAbsPnpApiPath, .declAbsRequire, .blank]
  ++ (match o.wrapModule with
      | some w => if w != "" then [.declModuleWrapper (normalizeWrapModule w), .blank] else []
      | none => [])
  ++ [.ifExists, .ifNotPnp, .setupComment module, .setupCall, .closeInner]
  ++ (if o.setupEnv then
        [.blank, .envGuardOpen, .envDefineProp, .blank,
         .envNodeOptionsInit, .envNodeOptionsAppend, .closeInner]
      else [])
  ++ (if o.usePnpify then
        [.blank, .pnpifyGuardOpen, .pnpifyDefineProp, .blank,
         .pnpifyNodeOptionsAppend, .blank, .pnpifyComment, .pnpifyPatchFs, .closeInner]
      else [])
  ++ [.closeOuter, .blank, .deferComment module,
      if wrapActive o then .exportsWrapped module else .exportsDirect module]

/-- `TEMPLATE`: the joined text of the generated script. -/
def TEMPLATE (relPnpApiPath : String) (module : String) (o : TemplateOptions) : String :=
  String.join ((templateLines relPnpApiPath module o).map renderLine)

/-- The lines forming the environment-variable augmentation block (the
`setupEnv` spread, lines 140-148). -/
def TLine.isEnvSetup : TLine → Bool
  | .envGuardOpen | .envDefineProp | .envNodeOptionsInit | .envNodeOptionsAppend => true
  | _ => false

/-- The lines forming the patch-hook invocation block (the `usePnpify`
spread, lines 149-159). -/
def TLine.isPnpifyHook : TLine → Bool
  | .pnpifyGuardOpen | .pnpifyDefineProp | .pnpifyNodeOptionsAppend
  | .pnpifyComment | .pnpifyPatchFs => true
  | _ => false

/-- Modelled from the spec: posix `ppath.join` from the Filesystem Provider
(`yarnpkg-fslib`, repository code not present under `src/`, §1). -/
def pjoin (a b : String) : String := a ++ "/" ++ b

/-- Modelled from the spec: `ppath.relative` from the Filesystem Provider
(`yarnpkg-fslib`, not under `src/`). The spec only states the core depends
on its exactness; the claims below depend only on which value `writeFile`
records, so a simple prefix-stripping model suffices. -/
def pathRelative (base p : String) : String :=
  if (base ++ "/").isPrefixOf p then p.drop (base.length + 1) else p

/-- The resolution-provider facts a `Wrapper` consults when computing
paths. -/
structure WrapperEnv where
  projectRoot : String
  target : String
deriving DecidableEq

/-- The `relProjectPath` computed by `Wrapper.writeFile` (lines 234-235):
relative path from the project root to `<target>/<name>/<relPackagePath>`. -/
def projectPathOf (env : WrapperEnv) (name relPackagePath : String) : String :=
  pathRelative env.projectRoot (pjoin (pjoin env.target name) relPackagePath)

/-- JavaScript `Map.get` on a string-keyed map: the value of the first
entry with the key (a `Map` holds at most one). -/
def mapGet : List (String × String) → String → Option String
  | [], _ => none
  | e :: tl, k => if e.1 = k then some e.2 else mapGet tl k

/-- JavaScript `Map.set`: overwrite in place when the key exists, otherwise
append (insertion order preserved). -/
def mapSet (m : List (String × String)) (k v : String) : List (String × String) :=
  if m.any (fun e => e.1 == k) then
    m.map (fun e => if e.1 = k then (e.1, v) else e)
  else
    m ++ [(k, v)]

/-- The mutable state of a `Wrapper` instance that `getProjectPathTo`
consults: its `name` and its `paths` map. -/
structure WrapperState where
  name : String
  paths : List (String × String)
deriving DecidableEq

/-- A freshly constructed `Wrapper` (line 196): empty `paths`. -/
def newWrapper (name : String) : WrapperState := { name := name, paths := [] }

/-- The `paths` effect of `Wrapper.writeFile` (line 243). `writeBinary`
(lines 224-228) calls `writeFile` and then only chmods the result, so its
`paths` effect is identical. -/
def wrapperWrite (env : WrapperEnv) (w : WrapperState) (relPackagePath : String) : WrapperState :=
  { w with paths := mapSet w.paths relPackagePath (projectPathOf env w.name relPackagePath) }

/-- A sequence of `writeFile` / `writeBinary` calls on a fresh wrapper. -/
def runWrites (env : WrapperEnv) (name : String) (ops : List String) : WrapperState :=
  ops.foldl (wrapperWrite env) (newWrapper name)

/-- The message of the assertion `getProjectPathTo` throws (line 252). -/
def PATH_ASSERT_MSG : String := "Assertion failed: Expected path to have been registered"

/-- `Wrapper.getProjectPathTo` (lines 248-255): look the path up; throw the
assertion error when it was never registered. -/
def getProjectPathTo (w : WrapperState) (relPackagePath : String) : Except String String :=
  match mapGet w.paths relPackagePath with
  | none => .error PATH_ASSERT_MSG
  | some relProjectPath => .ok relProjectPath

theorem mapGet_overwrite_ne (m : List (String × String)) (k v p : String) (h : p ≠ k) :
    mapGet (m.map (fun e => if e.1 = k then (e.1, v) else e)) p = mapGet m p := by
  induction m with
  | nil => rfl
  | cons e tl ih =>
    simp only [List.map_cons]
    by_cases hek : e.1 = k
    · have hep : ¬ e.1 = p := fun hc => h (hc ▸ hek)
      rw [if_pos hek]
      show (if e.1 = p then some v else _) = _
      rw [if_neg hep, mapGet, if_neg hep]
      exact ih
    · rw [if_neg hek]
      by_cases hep : e.1 = p
      · rw [mapGet, if_pos hep, mapGet, if_pos hep]
      · rw [mapGet, if_neg hep, mapGet, if_neg hep]
        exact ih

theorem mapGet_overwrite_eq (m : List (String × String)) (k v : String)
    (hany : m.any (fun e => e.1 == k) = true) :
    mapGet (m.map (fun e => if e.1 = k then (e.1, v) else e)) k = some v := by
  induction m with
  | nil => simp at hany
  | cons e tl ih =>
    simp only [List.map_cons]
    by_cases hek : e.1 = k
    · rw [if_pos hek]
      show (if e.1 = k then some v else _) = _
      rw [if_pos hek]
    · have htl : tl.any (fun e => e.1 == k) = true := by
        rw [List.any_cons, show (e.1 == k) = false from beq_eq_false_iff_ne.mpr hek,
          Bool.false_or] at hany
        exact hany
      rw [if_neg hek, mapGet, if_neg hek]
      exact ih htl

theorem mapGet_append_single (m : List (String × String)) (k v p : String) :
    mapGet (m ++ [(k, v)]) p =
      match mapGet m p with
      | some x => some x
      | none => if p = k then some v else none := by
  induction m with
  | nil =>
    by_cases hpk : p = k
    · simp [mapGet, hpk]
    · have hkp : ¬ k = p := fun hc => hpk hc.symm
      simp [mapGet, hpk, hkp]
  | cons e tl ih =>
    by_cases hep : e.1 = p
    · simp [mapGet, hep]
    · rw [List.cons_append, mapGet, if_neg hep, mapGet, if_neg hep]
      exact ih

theorem mapGet_any_false (m : List (String × String)) (k : String)
    (hany : m.any (fun e => e.1 == k) = false) : mapGet m k = none := by
  induction m with
  | nil => rfl
  | cons e tl ih =>
    rw [List.any_cons, Bool.or_eq_false_iff] at hany
    rw [mapGet, if_neg (beq_eq_false_iff_ne.mp hany.1)]
    exact ih hany.2

theorem mapGet_mapSet (m : List (String × String)) (k v p : String) :
    mapGet (mapSet m k v) p = if p = k then some v else mapGet m p := by
  unfold mapSet
  by_cases hany : m.any (fun e => e.1 == k)
  · rw [if_pos hany]
    by_cases hpk : p = k
    · subst hpk
      rw [if_pos rfl]
      exact mapGet_overwrite_eq m p v hany
    · rw [if_neg hpk]
      exact mapGet_overwrite_ne m k v p hpk
  · rw [if_neg hany]
    rw [mapGet_append_single]
    have hmiss : mapGet m k = none :=
      mapGet_any_false m k (Bool.eq_false_iff.mpr hany)
    by_cases hpk : p = k
    · subst hpk
      rw [hmiss]
    · rcases hm : mapGet m p with _ | x
      · simp [hpk]
      · simp [hpk]

theorem mapGet_foldl_writes (env : WrapperEnv) (ops : List String) (p : String) :
    ∀ (w : WrapperState),
      mapGet ((ops.foldl (wrapperWrite env) w).paths) p =
        if p ∈ ops then some (projectPathOf env w.name p) else mapGet w.paths p := by
  induction ops with
  | nil => intro w; simp
  | cons a rest ih =>
    intro w
    rw [List.foldl_cons, ih]
    by_cases hmem : p ∈ rest
    · rw [if_pos hmem, if_pos (List.mem_cons_of_mem a hmem)]
      rfl
    · rw [if_neg hmem]
      show mapGet (mapSet w.paths a (projectPathOf env w.name a)) p = _
      rw [mapGet_mapSet]
      by_cases hpa : p = a
      · subst hpa
        rw [if_pos rfl, if_pos (List.mem_cons_self p rest)]
      · rw [if_neg hpa, if_neg (fun hc => by
          rcases List.mem_cons.mp hc with h1 | h2
          · exact hpa h1
          · exact hmem h2)]

/-- One observable effect of a `generateSdk` run, in the order the source
performs them: warnings, recursive removals, the persisted integrations
document, generator invocations, and report lines. -/
inductive Event where
  | warnOldCleanup
  | removeOldFolder
  | warnTargetCleanup
  | removeTargetFolder
  | persistIntegrations (doc : JsVal)
  | invokeDefaultWrapper (integration : String)
  | reportFoundSdk (displayName : String)
  | invokeBaseWrapper (pkgName : String)
  | invokeIntegrationWrapper (integration : String) (pkgName : String)
  | warnSkippedItem (displayName : String)
  | warnSkippedCount (n : Nat)
  | reportUpdatedIntegration (integration : String)
  | reportNewIntegration (integration : String)
deriving DecidableEq

/-- The inputs a `generateSdk` run consumes (lines 263-354). The SDK
registry contents are parameters: `BASE_SDKS`, `COC_VIM_SDKS` and
`VSCODE_SDKS` live in `sdks/*.ts`, repository files not present under
`src/`; only their shapes (`BaseSdks`, `IntegrationSdks`, lines 180-185)
are in the source. A base-SDK entry is kept as its package name; an
integration-table entry is kept as its key (`none` for the `null` default
key) paired with whether a generator function is attached (the source
allows `null` generators). `getDisplayName` (lines 26-27) is lodash-based
and external, so it too is a parameter. -/
structure SdkConfig where
  requestedIntegrations : List String
  preexistingIntegrations : List String
  dependencies : List String
  oldFolderExists : Bool
  oldFolderIsSymlink : Bool
  targetFolderExists : Bool
  onlyBase : Bool
  verbose : Bool
  baseSdks : List String
  vimSdks : List (Option String × Bool)
  vscodeSdks : List (Option String × Bool)
  getDisplayName : String → String

/-- The `SUPPORTED_INTEGRATIONS` registry (lines 21-24): the keys are fixed
in the source; the table contents come from the configuration. -/
def supportedIntegrationTables (cfg : SdkConfig) :
    List (String × List (Option String × Bool)) :=
  [("vim", cfg.vimSdks), ("vscode", cfg.vscodeSdks)]

/-- Line 269-272: `new Set([...requested, ...preexisting])`. -/
def allIntegrationsOf (cfg : SdkConfig) : List String :=
  jsSetOf (cfg.requestedIntegrations ++ cfg.preexistingIntegrations)

/-- Lines 290-295 (`miscUtils.mapAndFilter`): keep the tables of active
integrations; the integration name is kept alongside purely to label the
invocation events. -/
def integrationSdksOf (cfg : SdkConfig) :
    List (String × List (Option String × Bool)) :=
  (supportedIntegrationTables cfg).filter
    (fun e => (allIntegrationsOf cfg).contains e.1)

/-- Lines 300-307: for each active table, find its default (`null`-keyed)
entry; when present and its generator is non-null, invoke it. -/
def defaultWrapperEvents (tables : List (String × List (Option String × Bool))) :
    List Event :=
  tables.flatMap (fun t =>
    match t.2.find? (fun sdk => sdk.1.isNone) with
    | none => []
    | some sdk => if sdk.2 then [.invokeDefaultWrapper t.1] else [])

/-- Lines 316-326: for each active table, find the entry keyed by
`pkgName`; when present and its generator is non-null, invoke it. -/
def integrationWrapperEvents (tables : List (String × List (Option String × Bool)))
    (pkgName : String) : List Event :=
  tables.flatMap (fun t =>
    match t.2.find? (fun sdk => sdk.1 == some pkgName) with
    | none => []
    | some sdk => if sdk.2 then [.invokeIntegrationWrapper t.1 pkgName] else [])

/-- Lines 309-330: the per-iteration effects of the `BASE_SDKS` loop, in
order (the `✓` info line, the base-wrapper call, then the matching
integration wrappers — or nothing when the package is not a top-level
dependency). -/
def baseSdkEvents (cfg : SdkConfig) : List Event :=
  cfg.baseSdks.flatMap (fun pkgName =>
    if pkgName ∈ cfg.dependencies then
      [.reportFoundSdk (cfg.getDisplayName pkgName), .invokeBaseWrapper pkgName]
        ++ integrationWrapperEvents (integrationSdksOf cfg) pkgName
    else [])

/-- The `skipped` array accumulated by the loop (lines 309-330): the
display names of the registered base SDKs absent from the dependencies, in
registration order. -/
def skippedOf (cfg : SdkConfig) : List String :=
  (cfg.baseSdks.filter (fun p => !(cfg.dependencies.contains p))).map cfg.getDisplayName

/-- Lines 332-340: the skipped report — itemized when verbose, a single
count line otherwise, nothing when nothing was skipped. -/
def skippedReportEvents (cfg : SdkConfig) : List Event :=
  let skipped := skippedOf cfg
  if skipped.length > 0 then
    if cfg.verbose then
      skipped.map .warnSkippedItem
    else
      [.warnSkippedCount skipped.length]
  else []

/-- Lines 343-353: per-integration settings report — `updated` when the
integration was preexisting, `new` otherwise. -/
def settingsReportEvents (cfg : SdkConfig) : List Event :=
  let allIntegrations := allIntegrationsOf cfg
  if allIntegrations.length > 0 then
    allIntegrations.map (fun integration =>
      if integration ∈ cfg.preexistingIntegrations then
        Event.reportUpdatedIntegration integration
      else
        Event.reportNewIntegration integration)
  else []

/-- `generateSdk` (lines 263-354) as the ordered trace of its effects:
legacy-folder migration, target cleanup, persisting the merged
integrations file, default wrappers, the base-SDK loop, the skipped
report, and the settings report. -/
def generateSdkTrace (cfg : SdkConfig) : List Event :=
  (if cfg.oldFolderExists && !cfg.oldFolderIsSymlink then
     [Event.warnOldCleanup, Event.removeOldFolder]
   else [])
  ++ (if cfg.targetFolderExists then
        [Event.warnTargetCleanup, Event.removeTargetFolder]
      else [])
  ++ [Event.persistIntegrations
        (persistDoc { integrations := (allIntegrationsOf cfg).map .jstr, raw := .jobj .nil })]
  ++ defaultWrapperEvents (integrationSdksOf cfg)
  ++ baseSdkEvents cfg
  ++ skippedReportEvents cfg
  ++ settingsReportEvents cfg

/-- Modelled from the spec: the package subdirectories each effect creates
under the output root. A base or integration wrapper writes only under
`<outputRoot>/<pkgName>/` (§3 Wrapper, §4.3 `writeManifest`/`writeFile`);
default wrappers and the remaining effects create no per-package directory
(§8 example: with the vscode integration active and eslint absent from the
dependencies, no `.yarn/sdks/eslint/` directory exists). -/
def pkgDirsCreated : Event → List String
  | .invokeBaseWrapper pkgName => [pkgName]
  | .invokeIntegrationWrapper _ pkgName => [pkgName]
  | _ => []

theorem jstr_injective : Function.Injective JsVal.jstr := by
  intro a b h
  injection h

theorem load_mkIntegrationsDoc (S : List String) (hnd : S.Nodup)
    (hsup : ∀ s ∈ S, isSupportedName s = true) :
    emptyIF.load (mkIntegrationsDoc S) =
      .ok { integrations := S.map .jstr, raw := mkIntegrationsDoc S } := by
  have hmap : (S.map JsVal.jstr).Nodup := hnd.map jstr_injective
  have hfil : (S.map JsVal.jstr).filter (fun v => !(isSupported v)) = [] := by
    rw [List.filter_eq_nil_iff]
    intro v hv
    obtain ⟨s, hs, rfl⟩ := List.mem_map.mp hv
    simp [isSupported, hsup s hs]
  unfold IFState.load
  rw [if_neg (by simp [mkIntegrationsDoc, typeofIsObject])]
  simp only [mkIntegrationsDoc, getField, JsObj.get, eq_self_iff_true, if_true]
  rw [JsArr.toList_ofList, jsSetOf_of_nodup hmap]
  simp [validateIntegrations, hfil, emptyIF]

theorem persistDoc_eq (l : List JsVal) (r : JsVal) :
    persistDoc { integrations := l, raw := r } =
      if l = [] then .jobj .nil
      else .jobj (.cons "integrations" (.jarr (JsArr.ofList l)) .nil) := by
  unfold persistDoc IFState.exportTo
  by_cases hl : l = []
  · subst hl
    simp
  · have hpos : l.length > 0 := List.length_pos.mpr hl
    simp [hpos, hl, JsObj.set, JsObj.hasKey, JsObj.append1]

theorem load_emptyDoc : emptyIF.load (.jobj .nil) =
    .ok { integrations := [], raw := .jobj .nil } := by
  decide

/-- Claim C1: for every set `S` of supported integration identifiers,
loading `{integrations: S}`, persisting, and loading the persisted
document into a fresh `IntegrationsFile` yields an integrations set equal
to `S`. -/
theorem integrations_roundtrip (S : List String) (hnd : S.Nodup)
    (hsup : ∀ s ∈ S, isSupportedName s = true) :
    ∃ st : IFState,
      emptyIF.load (mkIntegrationsDoc S) = .ok st ∧
      st.integrations = S.map .jstr ∧
      emptyIF.load (persistDoc st) =
        .ok { integrations := S.map .jstr, raw := persistDoc st } := by
  refine ⟨_, load_mkIntegrationsDoc S hnd hsup, rfl, ?_⟩
  by_cases hS : S = []
  · subst hS
    rw [persistDoc_eq]
    simp only [List.map_nil, if_pos rfl]
    exact load_emptyDoc
  · have hmap : S.map JsVal.jstr ≠ [] := by
      simp [hS]
    rw [persistDoc_eq, if_neg hmap]
    exact load_mkIntegrationsDoc S hnd hsup

/-- Claim C1 witness: the round trip at the concrete set `{"vscode"}`. -/
theorem integrations_roundtrip_witness :
    ∃ st : IFState,
      emptyIF.load (mkIntegrationsDoc ["vscode"]) = .ok st ∧
      st.integrations = ["vscode"].map .jstr ∧
      emptyIF.load (persistDoc st) =
        .ok { integrations := ["vscode"].map .jstr, raw := persistDoc st } :=
  integrations_roundtrip ["vscode"] (by decide) (by decide)

/-- A loaded document carrying an unknown key `foo` next to a valid
integrations list (used to refute claim C2). -/
def rawDocWithFoo : JsVal :=
  .jobj (.cons "foo" (.jstr "bar")
    (.cons "integrations" (.jarr (.cons (.jstr "vscode") .nil)) .nil))

/-- Claim C2 counterexample: after loading a document with the unknown key
`foo`, the document written by `persist` no longer contains `foo` — the
source builds the persisted document from a fresh `\x7b\x7d` and never
consults `raw`, so unrecognized fields are dropped. -/
theorem persist_drops_foo_counterexample :
    emptyIF.load rawDocWithFoo =
      .ok { integrations := [.jstr "vscode"], raw := rawDocWithFoo } ∧
    getField rawDocWithFoo "foo" = some (.jstr "bar") ∧
    persistDoc { integrations := [.jstr "vscode"], raw := rawDocWithFoo } =
      .jobj (.cons "integrations" (.jarr (.cons (.jstr "vscode") .nil)) .nil) ∧
    getField (persistDoc { integrations := [.jstr "vscode"], raw := rawDocWithFoo })
      "foo" = none := by
  decide

/-- Claim C2 (amended): unknown top-level keys do not survive round-trip
persistence. The document `persist` writes contains at most the
`integrations` key: every key other than `integrations` is absent from it,
whatever `raw` holds, because `persist` exports into a fresh empty
object. -/
theorem persist_drops_unknown_keys (st : IFState) (k : String)
    (h : k ≠ "integrations") : getField (persistDoc st) k = none := by
  unfold persistDoc IFState.exportTo
  by_cases hl : st.integrations.length > 0
  · rw [if_pos hl]
    have hik : ¬ ("integrations" = k) := fun hc => h hc.symm
    simp [JsObj.set, JsObj.hasKey, JsObj.append1, getField, JsObj.get, hik]
  · rw [if_neg hl]
    rfl

/-- Claim C2 (amended) witness: the key `foo` is absent from the persisted
document of the loaded state above. -/
theorem persist_drops_unknown_keys_witness :
    getField (persistDoc { integrations := [.jstr "vscode"], raw := rawDocWithFoo })
      "foo" = none :=
  persist_drops_unknown_keys { integrations := [.jstr "vscode"], raw := rawDocWithFoo }
    "foo" (by decide)

/-- Claim C3's spec-side notion, stated from the spec's words for
comparison with the source's `typeof`-based check: a non-null key-value
mapping, i.e. a plain object. -/
def isKeyValueMapping : JsVal → Bool
  | .jobj _ => true
  | _ => false

/-- Claim C3 counterexample: an empty array is not a key-value mapping,
yet `load` accepts it (`typeof [] === 'object'` in JavaScript), so "fails
if and only if data is not a non-null key-value mapping" is false on the
code. -/
theorem load_accepts_array_counterexample :
    emptyIF.load (.jarr .nil) = .ok { integrations := [], raw := .jarr .nil } ∧
    isKeyValueMapping (.jarr .nil) = false := by
  decide

/-- Whether a load result is the generic invalid-data error. -/
def isUtterlyInvalidError : Except LoadError IFState → Bool
  | .error (.utterlyInvalid _) => true
  | _ => false

theorem validate_error_shape {l : List JsVal} {e : LoadError}
    (h : validateIntegrations l = .error e) :
    e = .usage (l.filter (fun v => !(isSupported v))) := by
  unfold validateIntegrations at h
  by_cases hc : (l.filter (fun v => !(isSupported v))).length > 0
  · rw [if_pos hc] at h
    injection h with h
    exact h.symm
  · rw [if_neg hc] at h
    cases h

/-- Claim C3 (amended): `load(data)` fails with the generic invalid-data
error iff `data` is `null` or not of `typeof === 'object'` — an array is
object-typed and therefore accepted even though it is not a key-value
mapping; whenever `load` succeeds, the whole value is copied into `raw`. -/
theorem load_generic_error_iff (st : IFState) (data : JsVal) :
    (isUtterlyInvalidError (st.load data) = true ↔
      (typeofIsObject data = false ∨ data = .jnull)) ∧
    (∀ st' : IFState, st.load data = .ok st' → st'.raw = data) := by
  by_cases hc : typeofIsObject data = false ∨ data = .jnull
  · have hred : st.load data = .error (.utterlyInvalid data) := by
      unfold IFState.load
      rw [if_pos hc]
    rw [hred]
    exact ⟨⟨fun _ => hc, fun _ => rfl⟩, fun st' h => by cases h⟩
  · rcases hg : getField data "integrations" with _ | v
    · have hred : st.load data = .ok { integrations := st.integrations, raw := data } := by
        unfold IFState.load
        rw [if_neg hc, hg]
      rw [hred]
      refine ⟨⟨fun h => ?_, fun h => absurd h hc⟩, fun st' h => ?_⟩
      · simp [isUtterlyInvalidError] at h
      · injection h with h
        rw [← h]
    · rcases v with _ | _ | b | n | s | xs | o
      rotate_left 5
      · rcases hv : validateIntegrations (jsSetOf xs.toList) with e | u
        · have he := validate_error_shape hv
          have hred : st.load data = .error e := by
            unfold IFState.load
            rw [if_neg hc, hg]
            simp only [hv]
          rw [hred]
          subst he
          refine ⟨⟨fun h => ?_, fun h => absurd h hc⟩, fun st' h => by cases h⟩
          simp [isUtterlyInvalidError] at h
        · have hred : st.load data =
              .ok { integrations := jsSetOf xs.toList, raw := data } := by
            unfold IFState.load
            rw [if_neg hc, hg]
            simp only [hv]
          rw [hred]
          refine ⟨⟨fun h => ?_, fun h => absurd h hc⟩, fun st' h => ?_⟩
          · simp [isUtterlyInvalidError] at h
          · injection h with h
            rw [← h]
      all_goals
        have hred : st.load data = .ok { integrations := st.integrations, raw := data } := by
          unfold IFState.load
          rw [if_neg hc, hg]
        rw [hred]
        refine ⟨⟨fun h => ?_, fun h => absurd h hc⟩, fun st' h => ?_⟩
        · simp [isUtterlyInvalidError] at h
        · injection h with h
          rw [← h]

/-- Claim C3 (amended) witness: loading the object `\x7ba: null\x7d`
succeeds and copies it whole into `raw`. -/
theorem load_generic_error_iff_witness :
    ({ integrations := ([] : List JsVal),
       raw := .jobj (.cons "a" .jnull .nil) } : IFState).raw =
      .jobj (.cons "a" .jnull .nil) :=
  (load_generic_error_iff emptyIF (.jobj (.cons "a" .jnull .nil))).2
    { integrations := [], raw := .jobj (.cons "a" .jnull .nil) } (by decide)

/-- Claim C4: loading `{integrations: xs}` where at least one identifier is
outside the supported enumeration fails with the `UsageError`, and the
failure detail names every unsupported identifier of the input at once —
none of the supported ones — followed by the guidance text. -/
theorem load_unsupported_lists_all (xs : List String)
    (h : ∃ x ∈ xs, isSupportedName x = false) :
    ∃ u : List JsVal,
      emptyIF.load (mkIntegrationsDoc xs) = .error (.usage u) ∧
      (∀ x ∈ xs, isSupportedName x = false → JsVal.jstr x ∈ u) ∧
      (∀ v ∈ u, isSupported v = false) ∧
      errorMessage (.usage u) =
        "No supported integrations with the following names could be found: "
          ++ jsJoinCommaSpace u ++ USAGE_GUIDANCE := by
  refine ⟨(jsSetOf (xs.map JsVal.jstr)).filter (fun v => !(isSupported v)),
    ?_, ?_, ?_, rfl⟩
  · have hne : (jsSetOf (xs.map JsVal.jstr)).filter (fun v => !(isSupported v)) ≠ [] := by
      obtain ⟨x, hx, hxf⟩ := h
      have hmem : JsVal.jstr x ∈ jsSetOf (xs.map JsVal.jstr) :=
        mem_jsSetOf.mpr (List.mem_map_of_mem _ hx)
      exact List.ne_nil_of_mem
        (List.mem_filter.mpr ⟨hmem, by simp [isSupported, hxf]⟩)
    have hpos :
        ((jsSetOf (xs.map JsVal.jstr)).filter (fun v => !(isSupported v))).length > 0 :=
      List.length_pos.mpr hne
    unfold IFState.load
    rw [if_neg (by simp [mkIntegrationsDoc, typeofIsObject])]
    simp only [mkIntegrationsDoc, getField, JsObj.get, eq_self_iff_true, if_true]
    rw [JsArr.toList_ofList]
    unfold validateIntegrations
    simp only [hpos, if_true]
  · intro x hx hxf
    exact List.mem_filter.mpr
      ⟨mem_jsSetOf.mpr (List.mem_map_of_mem _ hx), by simp [isSupported, hxf]⟩
  · intro v hv
    have h2 := (List.mem_filter.mp hv).2
    simpa using h2

/-- Claim C4 witness: the input `{"vscode", "foo"}` has the unsupported
identifier `foo`, and load fails naming it. -/
theorem load_unsupported_lists_all_witness :
    ∃ u : List JsVal,
      emptyIF.load (mkIntegrationsDoc ["vscode", "foo"]) = .error (.usage u) ∧
      (∀ x ∈ ["vscode", "foo"], isSupportedName x = false → JsVal.jstr x ∈ u) ∧
      (∀ v ∈ u, isSupported v = false) ∧
      errorMessage (.usage u) =
        "No supported integrations with the following names could be found: "
          ++ jsJoinCommaSpace u ++ USAGE_GUIDANCE :=
  load_unsupported_lists_all ["vscode", "foo"] (by decide)

theorem templateLines_plain (p m : String) :
    templateLines p m { setupEnv := false, usePnpify := false, wrapModule := none } =
      [.shebang, .blank, .requireFs, .requireModule, .requirePath, .blank,
       .declRelPnpApiPath p, .blank, .declAbsPnpApiPath, .declAbsRequire, .blank,
       .ifExists, .ifNotPnp, .setupComment m, .setupCall, .closeInner,
       .closeOuter, .blank, .deferComment m, .exportsDirect m] := by
  rfl

/-- Claim C6: with `setupEnv=false`, `usePnpify=false` and no `wrapModule`,
the rendered template contains no line of the environment-variable
augmentation block, no line of the patch-hook invocation block, and its
final statement exports the required module directly. -/
theorem template_plain_no_blocks (p m : String) :
    (∀ l ∈ templateLines p m { setupEnv := false, usePnpify := false, wrapModule := none },
      l.isEnvSetup = false) ∧
    (∀ l ∈ templateLines p m { setupEnv := false, usePnpify := false, wrapModule := none },
      l.isPnpifyHook = false) ∧
    (templateLines p m
        { setupEnv := false, usePnpify := false, wrapModule := none }).getLast? =
      some (.exportsDirect m) ∧
    renderLine (.exportsDirect m) = "module.exports = absRequire(`" ++ m ++ "`);\n" := by
  rw [templateLines_plain]
  refine ⟨?_, ?_, rfl, rfl⟩
  · intro l hl
    simp only [List.mem_cons, List.not_mem_nil, or_false] at hl
    rcases hl with rfl | rfl | rfl | rfl | rfl | rfl | rfl | rfl | rfl | rfl |
      rfl | rfl | rfl | rfl | rfl | rfl | rfl | rfl | rfl | rfl <;> rfl
  · intro l hl
    simp only [List.mem_cons, List.not_mem_nil, or_false] at hl
    rcases hl with rfl | rfl | rfl | rfl | rfl | rfl | rfl | rfl | rfl | rfl |
      rfl | rfl | rfl | rfl | rfl | rfl | rfl | rfl | rfl | rfl <;> rfl

/-- Claim C7: with a non-empty `wrapModule` source, the rendered template
defines the (normalized) transform as `moduleWrapper` and its final
statement exports `moduleWrapper` applied to the required module, not the
module directly. -/
theorem template_wrapModule (p m w : String) (o : TemplateOptions)
    (hw : w ≠ "") (ho : o.wrapModule = some w) :
    TLine.declModuleWrapper (normalizeWrapModule w) ∈ templateLines p m o ∧
    (templateLines p m o).getLast? = some (.exportsWrapped m) ∧
    (templateLines p m o).getLast? ≠ some (.exportsDirect m) ∧
    renderLine (.exportsWrapped m) =
      "module.exports = moduleWrapper(absRequire(`" ++ m ++ "`));\n" := by
  obtain ⟨se, up, wm⟩ := o
  simp only at ho
  subst ho
  have hw2 : (w != "") = true := bne_iff_ne.mpr hw
  cases se <;> cases up <;>
    refine ⟨?_, ?_, ?_, rfl⟩ <;>
      simp [templateLines, wrapActive, hw2, List.getLast?_append]

/-- Claim C7 witness: a concrete transform source at concrete paths. -/
theorem template_wrapModule_witness :
    TLine.declModuleWrapper (normalizeWrapModule "mod => mod") ∈
      templateLines "../../.pnp.js" "eslint"
        { setupEnv := false, usePnpify := false, wrapModule := some "mod => mod" } ∧
    (templateLines "../../.pnp.js" "eslint"
        { setupEnv := false, usePnpify := false,
          wrapModule := some "mod => mod" }).getLast? =
      some (.exportsWrapped "eslint") ∧
    (templateLines "../../.pnp.js" "eslint"
        { setupEnv := false, usePnpify := false,
          wrapModule := some "mod => mod" }).getLast? ≠
      some (.exportsDirect "eslint") ∧
    renderLine (.exportsWrapped "eslint") =
      "module.exports = moduleWrapper(absRequire(`" ++ "eslint" ++ "`));\n" :=
  template_wrapModule "../../.pnp.js" "eslint" "mod => mod"
    { setupEnv := false, usePnpify := false, wrapModule := some "mod => mod" }
    (by decide) rfl

/-- Claim C8: on any `Wrapper` instance reached by a sequence of
`writeFile` / `writeBinary` calls, `getProjectPathTo p` returns the
project-root-relative path recorded for `p` when `p` was written, and
fails with the registration assertion otherwise. -/
theorem getProjectPathTo_spec (env : WrapperEnv) (name : String)
    (ops : List String) (p : String) :
    getProjectPathTo (runWrites env name ops) p =
      if p ∈ ops then .ok (projectPathOf env name p)
      else .error PATH_ASSERT_MSG := by
  unfold getProjectPathTo runWrites
  rw [mapGet_foldl_writes]
  by_cases hmem : p ∈ ops
  · rw [if_pos hmem, if_pos hmem]
    rfl
  · rw [if_neg hmem, if_neg hmem]
    rfl

theorem mem_defaultWrapperEvents {tables : List (String × List (Option String × Bool))}
    {e : Event} (he : e ∈ defaultWrapperEvents tables) :
    ∃ i, e = Event.invokeDefaultWrapper i := by
  obtain ⟨t, _, he⟩ := List.mem_flatMap.mp he
  rcases hf : t.2.find? (fun sdk => sdk.1.isNone) with _ | sdk
  · rw [hf] at he
    replace he : e ∈ ([] : List Event) := he
    cases he
  · rw [hf] at he
    replace he : e ∈ (if sdk.2 = true then [Event.invokeDefaultWrapper t.1] else []) := he
    by_cases hs : sdk.2 = true
    · rw [if_pos hs, List.mem_singleton] at he
      exact ⟨t.1, he⟩
    · rw [if_neg hs] at he
      cases he

theorem mem_integrationWrapperEvents
    {tables : List (String × List (Option String × Bool))} {pkgName : String}
    {e : Event} (he : e ∈ integrationWrapperEvents tables pkgName) :
    ∃ i, e = Event.invokeIntegrationWrapper i pkgName := by
  obtain ⟨t, _, he⟩ := List.mem_flatMap.mp he
  rcases hf : t.2.find? (fun sdk => sdk.1 == some pkgName) with _ | sdk
  · rw [hf] at he
    replace he : e ∈ ([] : List Event) := he
    cases he
  · rw [hf] at he
    replace he : e ∈
        (if sdk.2 = true then [Event.invokeIntegrationWrapper t.1 pkgName] else []) := he
    by_cases hs : sdk.2 = true
    · rw [if_pos hs, List.mem_singleton] at he
      exact ⟨t.1, he⟩
    · rw [if_neg hs] at he
      cases he

theorem mem_baseSdkEvents {cfg : SdkConfig} {e : Event}
    (he : e ∈ baseSdkEvents cfg) :
    ∃ pkgName, pkgName ∈ cfg.baseSdks ∧ pkgName ∈ cfg.dependencies ∧
      (e = .reportFoundSdk (cfg.getDisplayName pkgName) ∨
       e = .invokeBaseWrapper pkgName ∨
       ∃ i, e = .invokeIntegrationWrapper i pkgName) := by
  obtain ⟨pkgName, hpkg, he⟩ := List.mem_flatMap.mp he
  by_cases hd : pkgName ∈ cfg.dependencies
  · rw [if_pos hd] at he
    refine ⟨pkgName, hpkg, hd, ?_⟩
    rcases List.mem_cons.mp he with rfl | he2
    · exact Or.inl rfl
    rcases List.mem_cons.mp he2 with rfl | he3
    · exact Or.inr (Or.inl rfl)
    · obtain ⟨i, rfl⟩ := mem_integrationWrapperEvents he3
      exact Or.inr (Or.inr ⟨i, rfl⟩)
  · rw [if_neg hd] at he
    cases he

theorem mem_skippedReportEvents {cfg : SdkConfig} {e : Event}
    (he : e ∈ skippedReportEvents cfg) :
    (∃ d, e = Event.warnSkippedItem d) ∨ (∃ n, e = Event.warnSkippedCount n) := by
  simp only [skippedReportEvents] at he
  split at he
  · split at he
    · obtain ⟨d, _, rfl⟩ := List.mem_map.mp he
      exact Or.inl ⟨d, rfl⟩
    · rw [List.mem_singleton] at he
      exact Or.inr ⟨_, he⟩
  · cases he

theorem mem_settingsReportEvents {cfg : SdkConfig} {e : Event}
    (he : e ∈ settingsReportEvents cfg) :
    (∃ i, e = Event.reportUpdatedIntegration i) ∨
    (∃ i, e = Event.reportNewIntegration i) := by
  simp only [settingsReportEvents] at he
  split at he
  · obtain ⟨i, _, rfl⟩ := List.mem_map.mp he
    by_cases hp : i ∈ cfg.preexistingIntegrations
    · exact Or.inl ⟨i, if_pos hp⟩
    · exact Or.inr ⟨i, if_neg hp⟩
  · cases he

theorem mem_old_segment_iff (cfg : SdkConfig) (e : Event)
    (hor : e = Event.warnOldCleanup ∨ e = Event.removeOldFolder) :
    e ∈ generateSdkTrace cfg ↔
      (cfg.oldFolderExists = true ∧ cfg.oldFolderIsSymlink = false) := by
  constructor
  · intro hmem
    simp only [generateSdkTrace, List.mem_append, or_assoc] at hmem
    rcases hmem with h | h | h | h | h | h | h
    · revert h
      split
      · rename_i hc
        intro _
        revert hc
        cases hel : cfg.oldFolderExists <;> cases hsl : cfg.oldFolderIsSymlink <;> simp
      · intro h
        cases h
    · revert h
      split
      · intro h
        rcases hor with rfl | rfl <;> simp at h
      · intro h
        cases h
    · rcases hor with rfl | rfl <;> simp at h
    · obtain ⟨i, hi⟩ := mem_defaultWrapperEvents h
      rcases hor with rfl | rfl <;> simp at hi
    · obtain ⟨pkg, _, _, hshape⟩ := mem_baseSdkEvents h
      rcases hshape with hi | hi | ⟨i, hi⟩ <;> rcases hor with rfl | rfl <;> simp at hi
    · rcases mem_skippedReportEvents h with ⟨d, hi⟩ | ⟨n, hi⟩ <;>
        rcases hor with rfl | rfl <;> simp at hi
    · rcases mem_settingsReportEvents h with ⟨i, hi⟩ | ⟨i, hi⟩ <;>
        rcases hor with rfl | rfl <;> simp at hi
  · rintro ⟨h1, h2⟩
    simp only [generateSdkTrace, List.mem_append, or_assoc]
    refine Or.inl ?_
    rw [h1, h2]
    rcases hor with rfl | rfl <;> simp

/-- Claim C9: on every run, the legacy output folder is warned about and
removed exactly when it exists and is not a symbolic link; when it is
absent or is a symbolic link, there is neither a removal nor a warning of
it. -/
theorem legacy_folder_migration (cfg : SdkConfig) :
    (Event.removeOldFolder ∈ generateSdkTrace cfg ↔
      (cfg.oldFolderExists = true ∧ cfg.oldFolderIsSymlink = false)) ∧
    (Event.warnOldCleanup ∈ generateSdkTrace cfg ↔
      (cfg.oldFolderExists = true ∧ cfg.oldFolderIsSymlink = false)) :=
  ⟨mem_old_segment_iff cfg _ (Or.inr rfl),
   mem_old_segment_iff cfg _ (Or.inl rfl)⟩

theorem pkgDirs_subset_deps (cfg : SdkConfig) :
    ∀ e ∈ generateSdkTrace cfg, ∀ q ∈ pkgDirsCreated e, q ∈ cfg.dependencies := by
  intro e he q hq
  simp only [generateSdkTrace, List.mem_append, or_assoc] at he
  rcases he with h | h | h | h | h | h | h
  · revert h
    split
    · intro h
      rcases List.mem_cons.mp h with rfl | h
      · cases hq
      rcases List.mem_cons.mp h with rfl | h
      · cases hq
      · cases h
    · intro h
      cases h
  · revert h
    split
    · intro h
      rcases List.mem_cons.mp h with rfl | h
      · cases hq
      rcases List.mem_cons.mp h with rfl | h
      · cases hq
      · cases h
    · intro h
      cases h
  · rcases List.mem_cons.mp h with rfl | h
    · cases hq
    · cases h
  · obtain ⟨i, rfl⟩ := mem_defaultWrapperEvents h
    cases hq
  · obtain ⟨pkg, _, hd, hshape⟩ := mem_baseSdkEvents h
    rcases hshape with rfl | rfl | ⟨i, rfl⟩
    · cases hq
    · rw [show pkgDirsCreated (Event.invokeBaseWrapper pkg) = [pkg] from rfl,
        List.mem_singleton] at hq
      subst hq
      exact hd
    · rw [show pkgDirsCreated (Event.invokeIntegrationWrapper i pkg) = [pkg] from rfl,
        List.mem_singleton] at hq
      subst hq
      exact hd
  · rcases mem_skippedReportEvents h with ⟨d, rfl⟩ | ⟨n, rfl⟩ <;> cases hq
  · rcases mem_settingsReportEvents h with ⟨i, rfl⟩ | ⟨i, rfl⟩ <;> cases hq

theorem skippedReportEvents_of_nonempty (cfg : SdkConfig) (h : skippedOf cfg ≠ []) :
    skippedReportEvents cfg =
      if cfg.verbose = true then (skippedOf cfg).map .warnSkippedItem
      else [.warnSkippedCount (skippedOf cfg).length] := by
  simp only [skippedReportEvents]
  rw [if_pos (List.length_pos.mpr h)]

/-- Claim C5: a package registered as a base SDK but absent from the
top-level dependency set gets no base-wrapper and no integration-wrapper
invocation, no `<outputRoot>/P/` directory is created for it, and it
appears in the skipped report — itemized when verbose, inside the count
otherwise. -/
theorem skipped_package_not_generated (cfg : SdkConfig) (P : String)
    (hreg : P ∈ cfg.baseSdks) (hdep : P ∉ cfg.dependencies) :
    Event.invokeBaseWrapper P ∉ generateSdkTrace cfg ∧
    (∀ i, Event.invokeIntegrationWrapper i P ∉ generateSdkTrace cfg) ∧
    (∀ e ∈ generateSdkTrace cfg, P ∉ pkgDirsCreated e) ∧
    cfg.getDisplayName P ∈ skippedOf cfg ∧
    (if cfg.verbose = true then
       Event.warnSkippedItem (cfg.getDisplayName P) ∈ generateSdkTrace cfg
     else
       Event.warnSkippedCount ((skippedOf cfg).length) ∈ generateSdkTrace cfg) := by
  have hmem : cfg.getDisplayName P ∈ skippedOf cfg :=
    List.mem_map_of_mem _ (List.mem_filter.mpr ⟨hreg, by simp [hdep]⟩)
  refine ⟨?_, ?_, ?_, hmem, ?_⟩
  · intro hc
    exact hdep (pkgDirs_subset_deps cfg _ hc P (List.mem_singleton.mpr rfl))
  · intro i hc
    exact hdep (pkgDirs_subset_deps cfg _ hc P (List.mem_singleton.mpr rfl))
  · intro e he hq
    exact hdep (pkgDirs_subset_deps cfg e he P hq)
  · have hne : skippedOf cfg ≠ [] := List.ne_nil_of_mem hmem
    have hrep := skippedReportEvents_of_nonempty cfg hne
    by_cases hv : cfg.verbose = true
    · rw [if_pos hv]
      simp only [generateSdkTrace, List.mem_append, or_assoc]
      refine Or.inr (Or.inr (Or.inr (Or.inr (Or.inr (Or.inl ?_)))))
      rw [hrep, if_pos hv]
      exact List.mem_map_of_mem _ hmem
    · rw [if_neg hv]
      simp only [generateSdkTrace, List.mem_append, or_assoc]
      refine Or.inr (Or.inr (Or.inr (Or.inr (Or.inr (Or.inl ?_)))))
      rw [hrep, if_neg hv]
      exact List.mem_singleton.mpr rfl

/-- The concrete configuration used by the claim C5 witness: vscode
requested, typescript a dependency, eslint registered as a base SDK but
absent from the dependencies. -/
def sampleCfg : SdkConfig :=
  { requestedIntegrations := ["vscode"]
    preexistingIntegrations := []
    dependencies := ["typescript"]
    oldFolderExists := false
    oldFolderIsSymlink := false
    targetFolderExists := false
    onlyBase := false
    verbose := true
    baseSdks := ["eslint", "typescript"]
    vimSdks := []
    vscodeSdks := [(none, true), (some "typescript", true), (some "eslint", true)]
    getDisplayName := fun s => s }

/-- Claim C5 witness: the sample configuration with `P = eslint`. -/
theorem skipped_package_not_generated_witness :
    Event.invokeBaseWrapper "eslint" ∉ generateSdkTrace sampleCfg ∧
    (∀ i, Event.invokeIntegrationWrapper i "eslint" ∉ generateSdkTrace sampleCfg) ∧
    (∀ e ∈ generateSdkTrace sampleCfg, "eslint" ∉ pkgDirsCreated e) ∧
    sampleCfg.getDisplayName "eslint" ∈ skippedOf sampleCfg ∧
    (if sampleCfg.verbose = true then
       Event.warnSkippedItem (sampleCfg.getDisplayName "eslint") ∈
         generateSdkTrace sampleCfg
     else
       Event.warnSkippedCount ((skippedOf sampleCfg).length) ∈
         generateSdkTrace sampleCfg) :=
  skipped_package_not_generated sampleCfg "eslint" (by decide) (by decide)

/-- Claim C10: the `onlyBase` option is accepted but never consulted — two
runs identical except for the value of `onlyBase` produce the same trace
of filesystem effects and reports. -/
theorem onlyBase_has_no_effect (cfg : SdkConfig) (b1 b2 : Bool) :
    generateSdkTrace { cfg with onlyBase := b1 } =
      generateSdkTrace { cfg with onlyBase := b2 } := by
  cases cfg
  rfl
